import Mathlib

/-!
Shallow embedding of `student_management_system.py` (a single-file student
record manager persisted to a CSV file).

Modelling conventions:
* Python `float` values are embedded as `Rat`.  Every value a Python float
  can hold is a rational whose denominator divides a power of ten's prime
  factors, so the numeric fields that the program ever produces are
  "decimal rationals" (`DecimalRat` below).
* Python `int` is embedded as `Int`.
* A CSV file is embedded at the row level as `List (List String)`: one
  entry per line, one string per field.  Quoting/escaping of separators is
  performed by Python's `csv` library and is outside the program under
  study, which only ever sees rows of fields.
* Python `str.lower` / `str.upper` on the ASCII data used here are
  embedded as `pyLower` / `pyUpper` (character-wise case maps).
* Interactive re-prompt loops (`get_valid_input`, the roll-number loop in
  `add_student`) never hand an invalid value to the record logic; they are
  embedded as validation that rejects the invalid input (for `add_student`)
  or leaves the field unchanged (for the update menu, matching the silent
  skip the code itself performs for an invalid gender).
-/

/-- Model of Python `str.lower` on the (ASCII) data this program handles:
lower-case every character. -/
def pyLower (s : String) : String := String.mk (s.data.map Char.toLower)

/-- Model of Python `str.upper` on the (ASCII) data this program handles:
upper-case every character. -/
def pyUpper (s : String) : String := String.mk (s.data.map Char.toUpper)

/-- One student record, mirroring the row dictionary
`{'Roll_No', 'Name', 'Age', 'Gender', 'Department', 'Semester', 'Marks', 'GPA', 'Grade'}`. -/
structure Student where
  roll_no : String
  name : String
  age : Int
  gender : String
  department : String
  semester : Int
  marks : Rat
  gpa : Rat
  grade : String
deriving DecidableEq

/-- `calculate_gpa_and_grade(marks)` from the source: the piecewise
GPA/grade table, an if/elif chain descending from 90. -/
def calculate_gpa_and_grade (marks : Rat) : Rat × String :=
  if marks ≥ 90 then (4, "A+")
  else if marks ≥ 80 then (mkRat 37 10, "A")
  else if marks ≥ 70 then (mkRat 33 10, "B+")
  else if marks ≥ 60 then (3, "B")
  else if marks ≥ 50 then (mkRat 27 10, "C+")
  else if marks ≥ 40 then (2, "C")
  else (0, "F")

/-- The canonical header row written by `initialize_csv_file` and
`save_students` and consumed by `load_students`' `DictReader`. -/
def csv_header : List String :=
  ["Roll_No", "Name", "Age", "Gender", "Department", "Semester", "Marks", "GPA", "Grade"]

section DigitStrings

/-- Least-significant-first decimal digits, by structural recursion on a
fuel bound (kernel-reducible, unlike `Nat.digits`; proven equal to it
below). -/
def natDigitsAux : Nat → Nat → List Nat
  | 0, _ => []
  | fuel + 1, n => if n = 0 then [] else n % 10 :: natDigitsAux fuel (n / 10)

/-- Least-significant-first decimal digits of `n` (empty for 0). -/
def natDigits (n : Nat) : List Nat := natDigitsAux n n

/-- The character for a single decimal digit (`0 ↦ '0'`, ..., `9 ↦ '9'`). -/
def digitToChar (d : Nat) : Char := Char.ofNat (48 + d)

/-- The numeric value of a decimal digit character, `none` for a non-digit. -/
def charToDigit (c : Char) : Option Nat :=
  if c.isDigit then some (c.toNat - 48) else none

/-- One step of left-to-right digit accumulation. -/
def pushDigit (acc : Option Nat) (c : Char) : Option Nat := do
  let a ← acc
  let d ← charToDigit c
  pure (10 * a + d)

/-- Parse a non-empty all-digit character list as a natural number, the way
Python's `int`/`float` read a digit run; `none` on the empty list or any
non-digit character. -/
def parseDigits (cs : List Char) : Option Nat :=
  if cs = [] then none else cs.foldl pushDigit (some 0)

/-- Most-significant-first decimal digit characters of `n` (empty for 0). -/
def natChars (n : Nat) : List Char :=
  ((natDigits n).reverse).map digitToChar

/-- Decimal digit characters of `n`, zero-padded on the left to width `k`. -/
def natPaddedChars (k n : Nat) : List Char :=
  List.replicate (k - (natDigits n).length) '0' ++ natChars n

/-- Decimal digit characters of `n`, non-empty (`0 ↦ "0"`), as `str(int)`
prints a non-negative Python int. -/
def natCharsNN (n : Nat) : List Char :=
  if n = 0 then ['0'] else natChars n

/-- Decimal string of a natural number, as Python's `str` prints it. -/
def natToString (n : Nat) : String := String.mk (natCharsNN n)

/-- Decimal string of an integer, as Python's `str` prints it. -/
def intToString (n : Int) : String :=
  if n < 0 then String.mk ('-' :: natCharsNN n.natAbs) else natToString n.toNat

end DigitStrings

section PyParsing

/-- Split a character list at its first `'.'`: the part before it, and
`some` the part after it (`none` when there is no dot). -/
def splitAtDot : List Char → List Char × Option (List Char)
  | [] => ([], none)
  | c :: rest =>
    if c = '.' then ([], some rest)
    else
      let (a, b) := splitAtDot rest
      (c :: a, b)

/-- Model of Python `int(s)` on the strings this program produces and
feeds it: an optional sign followed by a non-empty digit run.  (Python
additionally strips whitespace and allows underscores; those inputs never
arise here.) -/
def parsePyInt (s : String) : Option Int :=
  match s.data with
  | [] => none
  | c :: rest =>
    if c = '-' then (parseDigits rest).map (fun n => -(n : Int))
    else if c = '+' then (parseDigits rest).map (fun n => (n : Int))
    else (parseDigits (c :: rest)).map (fun n => (n : Int))

/-- The unsigned part of Python `float(s)`: `D`, `D.`, `.D` or `D.D` with
`D` a digit run.  (Exponent and `inf`/`nan` forms never arise here.) -/
def parseUnsignedFloat (cs : List Char) : Option Rat :=
  match splitAtDot cs with
  | (ip, none) => (parseDigits ip).map (fun n => (n : Rat))
  | (ip, some fp) =>
    if ip = [] then
      (parseDigits fp).map (fun f => mkRat f (10 ^ fp.length))
    else if fp = [] then
      (parseDigits ip).map (fun n => (n : Rat))
    else do
      let i ← parseDigits ip
      let f ← parseDigits fp
      pure (mkRat (i * 10 ^ fp.length + f) (10 ^ fp.length))

/-- Model of Python `float(s)` on the strings this program produces and
feeds it: an optional sign followed by an unsigned decimal. -/
def parsePyFloat (s : String) : Option Rat :=
  match s.data with
  | [] => none
  | c :: rest =>
    if c = '-' then (parseUnsignedFloat rest).map (fun q => -q)
    else if c = '+' then parseUnsignedFloat rest
    else parseUnsignedFloat (c :: rest)

/-- A rational with a finite decimal expansion — exactly the values a
Python float (binary fraction) can hold, intersected with those `float(s)`
can read back.  Stated via an explicit exponent bound so it is decidable
on concrete values: a denominator of the form `2^a * 5^b` always divides
`10 ^ den`. -/
def DecimalRat (q : Rat) : Prop := q.den ∣ 10 ^ q.den

instance (q : Rat) : Decidable (DecimalRat q) := by unfold DecimalRat; infer_instance

/-- Decimal rendering of a non-negative `DecimalRat`, as the value that
Python `str(float)` prints: an integer part, a dot, and a fractional part
of `q.den` digits.  (Python prints the shortest string that reads back to
the same float; this rendering may carry trailing zeros but reads back to
the same value, which is the property persistence relies on.) -/
def ratToString (q : Rat) : String :=
  let k := q.den
  let scaled := q.num.toNat * (10 ^ k / q.den)
  String.mk (natCharsNN (scaled / 10 ^ k) ++ '.' :: natPaddedChars k (scaled % 10 ^ k))

end PyParsing

instance {ε α : Type} [DecidableEq ε] [DecidableEq α] : DecidableEq (Except ε α) :=
  fun a b =>
  match a, b with
  | .ok x, .ok y => if h : x = y then .isTrue (by rw [h]) else .isFalse (by simp [h])
  | .error x, .error y => if h : x = y then .isTrue (by rw [h]) else .isFalse (by simp [h])
  | .ok _, .error _ => .isFalse (by simp)
  | .error _, .ok _ => .isFalse (by simp)

section Persistence

/-- The CSV row `save_students`' `DictWriter` emits for one record:
the nine fields in header order, numbers in their `str` form. -/
def student_to_row (s : Student) : List String :=
  [s.roll_no, s.name, intToString s.age, s.gender, s.department,
   intToString s.semester, ratToString s.marks, ratToString s.gpa, s.grade]

/-- `save_students(students)` from the source, at the row level.  The
body is guarded by `if students:`, so an empty record list writes nothing
at all — not even the header — and the (truncated) file is left empty. -/
def save_students (students : List Student) : List (List String) :=
  if students.isEmpty then []
  else csv_header :: students.map student_to_row

/-- One loop iteration of `load_students`: coerce the `Age`, `Semester`,
`Marks`, `GPA` fields of a data row (an empty field coerces to `0`/`0.0`;
a missing field raises).  `none` models the coercion raising, which the
surrounding `except` catches.  A `DictReader` row keeps any extra fields
beyond the nine under a rest key the loop never touches. -/
def parse_row : List String → Option Student
  | rn :: nm :: ag :: gd :: dp :: sm :: mk :: gp :: gr :: _ => do
    let age ← if ag = "" then some 0 else parsePyInt ag
    let sem ← if sm = "" then some 0 else parsePyInt sm
    let marks ← if mk = "" then some 0 else parsePyFloat mk
    let gpa ← if gp = "" then some 0 else parsePyFloat gp
    pure { roll_no := rn, name := nm, age := age, gender := gd,
           department := dp, semester := sem, marks := marks,
           gpa := gpa, grade := gr }
  | _ => none

/-- The row loop of `load_students`: each parsed row is appended to the
accumulator; the first row whose coercion raises aborts the loop and the
accumulator gathered so far is what the function returns. -/
def load_rows : List (List String) → List Student → List Student
  | [], acc => acc
  | r :: rest, acc =>
    match parse_row r with
    | some s => load_rows rest (acc ++ [s])
    | none => acc

/-- `load_students()` from the source, at the row level.  An empty file
yields no rows (as `DictReader` does); a first row other than the
canonical header makes every field lookup raise on the first data row, so
nothing is accumulated.  Note the source returns the partially filled
`students` list after catching a coercion error — it does not discard it. -/
def load_students (file : List (List String)) : List Student :=
  match file with
  | [] => []
  | hdr :: rows => if hdr = csv_header then load_rows rows [] else []

end Persistence

section RecordStore

/-- The allowed gender strings (after upper-casing), as in the source. -/
def gender_options : List String := ["M", "F", "OTHER"]

/-- `is_roll_no_unique(roll_no, students, exclude_index)` from the
source: scan with the running index, reporting a clash only at an index
different from `exclude_index`. -/
def is_roll_no_unique_from (roll_no : String) (exclude_index i : Int) :
    List Student → Bool
  | [] => true
  | s :: rest =>
    (i == exclude_index || pyLower s.roll_no != pyLower roll_no)
      && is_roll_no_unique_from roll_no exclude_index (i + 1) rest

/-- `is_roll_no_unique` with the scan started at index 0. -/
def is_roll_no_unique (roll_no : String) (students : List Student)
    (exclude_index : Int) : Bool :=
  is_roll_no_unique_from roll_no exclude_index 0 students

/-- The validated field values `add_student` collects before building a
record (the source gathers them interactively). -/
structure StudentInput where
  roll_no : String
  name : String
  age : Int
  gender : String
  department : String
  semester : Int
  marks : Rat
deriving DecidableEq

/-- Validation failures of `add_student`; in the source each corresponds
to a re-prompt loop that refuses the value. -/
inductive VError where
  | emptyRollNo | duplicateRollNo | emptyName | invalidAge
  | invalidGender | emptyDepartment | invalidSemester | invalidMarks
deriving DecidableEq

/-- `add_student(students)` from the source as a store operation: the
checks in source order (roll number non-empty then unique, name, age,
gender, department, semester, marks), then the record is built with
`calculate_gpa_and_grade` and appended. -/
def add_student (inp : StudentInput) (students : List Student) :
    Except VError (List Student) :=
  if inp.roll_no = "" then .error .emptyRollNo
  else if ¬ is_roll_no_unique inp.roll_no students (-1) then .error .duplicateRollNo
  else if inp.name = "" then .error .emptyName
  else if ¬ (15 ≤ inp.age ∧ inp.age ≤ 100) then .error .invalidAge
  else if pyUpper inp.gender ∉ gender_options then .error .invalidGender
  else if inp.department = "" then .error .emptyDepartment
  else if ¬ (1 ≤ inp.semester ∧ inp.semester ≤ 8) then .error .invalidSemester
  else if ¬ (0 ≤ inp.marks ∧ inp.marks ≤ 100) then .error .invalidMarks
  else
    let (gpa, grade) := calculate_gpa_and_grade inp.marks
    .ok (students ++ [({ roll_no := inp.roll_no, name := inp.name,
                         age := inp.age, gender := pyUpper inp.gender,
                         department := inp.department, semester := inp.semester,
                         marks := inp.marks, gpa := gpa,
                         grade := grade } : Student)])

/-- The menu choices 1–7 of `update_student`, each carrying the value the
user typed for it. -/
inductive UpdateChoice where
  | set_name (n : String)
  | set_age (a : Int)
  | set_gender (g : String)
  | set_department (d : String)
  | set_semester (k : Int)
  | set_marks (m : Rat)
  | update_all (n : String) (a : Int) (g : String) (d : String) (k : Int) (m : Rat)
deriving DecidableEq

/-- The in-place mutation `update_student` performs on the found record:
an empty name/department and an unrecognised gender leave the field as it
was; a marks update recomputes `GPA`/`Grade`.  (Out-of-range numeric
values cannot reach this point — `get_valid_input` loops until the value
is in range — so they are embedded as "leave unchanged".) -/
def applyChoice (c : UpdateChoice) (s : Student) : Student :=
  match c with
  | .set_name n => if n = "" then s else { s with name := n }
  | .set_age a => if 15 ≤ a ∧ a ≤ 100 then { s with age := a } else s
  | .set_gender g =>
    if pyUpper g ∈ gender_options then { s with gender := pyUpper g } else s
  | .set_department d => if d = "" then s else { s with department := d }
  | .set_semester k => if 1 ≤ k ∧ k ≤ 8 then { s with semester := k } else s
  | .set_marks m =>
    if 0 ≤ m ∧ m ≤ 100 then
      let (gpa, grade) := calculate_gpa_and_grade m
      { s with marks := m, gpa := gpa, grade := grade }
    else s
  | .update_all n a g d k m =>
    let s1 := if n = "" then s else { s with name := n }
    let s2 := if 15 ≤ a ∧ a ≤ 100 then { s1 with age := a } else s1
    let s3 := if pyUpper g ∈ gender_options then { s2 with gender := pyUpper g } else s2
    let s4 := if d = "" then s3 else { s3 with department := d }
    let s5 := if 1 ≤ k ∧ k ≤ 8 then { s4 with semester := k } else s4
    if 0 ≤ m ∧ m ≤ 100 then
      let (gpa, grade) := calculate_gpa_and_grade m
      { s5 with marks := m, gpa := gpa, grade := grade }
    else s5

/-- Failure of `update_student`/`delete_student`: no record carries the
given roll number ("Student not found!"). -/
inductive UError where
  | notFound
deriving DecidableEq

/-- `update_student(students)` from the source as a store operation: the
first record whose roll number matches case-insensitively is mutated in
place; if none matches, the store is untouched. -/
def update_student (roll_no : String) (c : UpdateChoice) :
    List Student → Except UError (List Student)
  | [] => .error .notFound
  | s :: rest =>
    if pyLower s.roll_no == pyLower roll_no then
      .ok (applyChoice c s :: rest)
    else
      (update_student roll_no c rest).map (fun l => s :: l)

/-- `delete_student(students)` from the source as a store operation
(with the confirmation answered "y"): the first case-insensitive match is
popped and returned. -/
def delete_student (roll_no : String) :
    List Student → Except UError (Student × List Student)
  | [] => .error .notFound
  | s :: rest =>
    if pyLower s.roll_no == pyLower roll_no then
      .ok (s, rest)
    else
      (delete_student roll_no rest).map (fun p => (p.1, s :: p.2))

/-- One store operation of the menu loop. -/
inductive Op where
  | create (inp : StudentInput)
  | update (roll_no : String) (c : UpdateChoice)
  | delete (roll_no : String)

/-- Effect of one operation on the in-memory list: a failed operation
(re-prompt or "Student not found!") leaves the list as it was. -/
def apply_op (op : Op) (students : List Student) : List Student :=
  match op with
  | .create inp =>
    match add_student inp students with
    | .ok l => l
    | .error _ => students
  | .update roll_no c =>
    match update_student roll_no c students with
    | .ok l => l
    | .error _ => students
  | .delete roll_no =>
    match delete_student roll_no students with
    | .ok p => p.2
    | .error _ => students

/-- A sequence of operations applied in order. -/
def apply_ops (ops : List Op) (students : List Student) : List Student :=
  ops.foldl (fun l op => apply_op op l) students

/-- The program's full state: the in-memory list plus the backing file.
Every successful mutation calls `save_students`; a failed one returns
before saving. -/
structure SysState where
  students : List Student
  file : List (List String)
deriving DecidableEq

/-- One operation on the full state: on success the store is replaced and
the whole store is saved; on failure nothing happens. -/
def run_op (op : Op) (st : SysState) : SysState :=
  match op with
  | .create inp =>
    match add_student inp st.students with
    | .ok l => ⟨l, save_students l⟩
    | .error _ => st
  | .update roll_no c =>
    match update_student roll_no c st.students with
    | .ok l => ⟨l, save_students l⟩
    | .error _ => st
  | .delete roll_no =>
    match delete_student roll_no st.students with
    | .ok p => ⟨p.2, save_students p.2⟩
    | .error _ => st

/-- The store invariant: no two records share a case-insensitively equal
roll number. -/
def UniqueRolls (students : List Student) : Prop :=
  students.Pairwise (fun a b => pyLower a.roll_no ≠ pyLower b.roll_no)

instance (students : List Student) : Decidable (UniqueRolls students) := by
  unfold UniqueRolls; infer_instance

/-- The hypotheses of the persistence round trip: the numeric fields are
in the ranges create/update enforce, and the float-valued fields hold
float-representable (finite-decimal) values. -/
def ValidStudent (s : Student) : Prop :=
  15 ≤ s.age ∧ s.age ≤ 100 ∧ 1 ≤ s.semester ∧ s.semester ≤ 8 ∧
  0 ≤ s.marks ∧ s.marks ≤ 100 ∧ 0 ≤ s.gpa ∧ s.gpa ≤ 4 ∧
  DecimalRat s.marks ∧ DecimalRat s.gpa

instance (s : Student) : Decidable (ValidStudent s) := by
  unfold ValidStudent; infer_instance

end RecordStore

section DigitLemmas

theorem natDigitsAux_eq (fuel n : Nat) (h : n ≤ fuel) :
    natDigitsAux fuel n = Nat.digits 10 n := by
  induction fuel generalizing n with
  | zero =>
    have : n = 0 := Nat.le_zero.mp h
    simp [natDigitsAux, this]
  | succ fuel ih =>
    by_cases hn : n = 0
    · simp [natDigitsAux, hn]
    · rw [natDigitsAux, if_neg hn,
        Nat.digits_def' (by norm_num : 1 < 10) (Nat.pos_of_ne_zero hn), ih _ ?_]
      omega

theorem natDigits_eq (n : Nat) : natDigits n = Nat.digits 10 n :=
  natDigitsAux_eq n n le_rfl

theorem mem_natDigits_lt (n d : Nat) (h : d ∈ natDigits n) : d < 10 := by
  rw [natDigits_eq] at h
  exact Nat.digits_lt_base (by norm_num) h

theorem charToDigit_digitToChar (d : Nat) (h : d < 10) :
    charToDigit (digitToChar d) = some d := by
  interval_cases d <;> decide

theorem isDigit_digitToChar (d : Nat) (h : d < 10) :
    (digitToChar d).isDigit = true := by
  interval_cases d <;> decide

theorem isDigit_not_special (c : Char) (h : c.isDigit = true) :
    c ≠ '-' ∧ c ≠ '+' ∧ c ≠ '.' := by
  refine ⟨fun he => ?_, fun he => ?_, fun he => ?_⟩ <;> (subst he; revert h; decide)

theorem foldl_pushDigit (ds : List Nat) (h : ∀ d ∈ ds, d < 10) (a : Nat) :
    (ds.map digitToChar).foldl pushDigit (some a) =
      some (ds.foldl (fun x d => 10 * x + d) a) := by
  induction ds generalizing a with
  | nil => rfl
  | cons d tl ih =>
    have hd : d < 10 := h d (List.mem_cons_self d tl)
    have htl : ∀ x ∈ tl, x < 10 := fun x hx => h x (List.mem_cons_of_mem d hx)
    simp only [List.map_cons, List.foldl_cons]
    rw [show pushDigit (some a) (digitToChar d) = some (10 * a + d) by
      simp [pushDigit, charToDigit_digitToChar d hd]]
    exact ih htl (10 * a + d)

theorem foldl_mul_add (ds : List Nat) (a : Nat) :
    ds.foldl (fun x d => 10 * x + d) a = a * 10 ^ ds.length + Nat.ofDigits 10 ds.reverse := by
  induction ds generalizing a with
  | nil => simp [Nat.ofDigits]
  | cons d tl ih =>
    simp only [List.foldl_cons, List.reverse_cons, List.length_cons]
    rw [ih (10 * a + d), Nat.ofDigits_append]
    simp [Nat.ofDigits]
    ring

theorem ofDigits_replicate_zero (z : Nat) :
    Nat.ofDigits 10 (List.replicate z 0) = 0 := by
  induction z with
  | zero => rfl
  | succ z ih => simp [List.replicate_succ, Nat.ofDigits, ih]

theorem parseDigits_padded (z n : Nat) (hlen : 0 < z + (natDigits n).length) :
    parseDigits (List.replicate z '0' ++ natChars n) = some n := by
  have hrep : List.replicate z '0' = (List.replicate z 0).map digitToChar := by
    rw [List.map_replicate]
    rfl
  have hlist : List.replicate z '0' ++ natChars n =
      ((List.replicate z 0 ++ (natDigits n).reverse).map digitToChar) := by
    rw [hrep, natChars, List.map_append]
  have hne : List.replicate z '0' ++ natChars n ≠ [] := by
    intro he
    have : (List.replicate z '0' ++ natChars n).length = 0 := by rw [he]; rfl
    rw [List.length_append, List.length_replicate, natChars, List.length_map,
      List.length_reverse] at this
    omega
  have hsmall : ∀ d ∈ List.replicate z 0 ++ (natDigits n).reverse, d < 10 := by
    intro d hd
    rcases List.mem_append.mp hd with hd | hd
    · have := List.eq_of_mem_replicate hd
      omega
    · exact mem_natDigits_lt n d (List.mem_reverse.mp hd)
  rw [parseDigits, if_neg hne, hlist, foldl_pushDigit _ hsmall 0, foldl_mul_add]
  congr 1
  rw [List.reverse_append, List.reverse_reverse, List.reverse_replicate,
    Nat.ofDigits_append, ofDigits_replicate_zero, natDigits_eq, Nat.ofDigits_digits]
  ring

theorem parseDigits_natCharsNN (n : Nat) : parseDigits (natCharsNN n) = some n := by
  by_cases hn : n = 0
  · subst hn; decide
  · rw [natCharsNN, if_neg hn]
    have := parseDigits_padded 0 n ?_
    · simpa using this
    · have : natDigits n ≠ [] := by
        rw [natDigits_eq]
        exact Nat.digits_ne_nil_iff_ne_zero.mpr hn
      have := List.length_pos.mpr this
      omega

theorem natCharsNN_ne_nil (n : Nat) : natCharsNN n ≠ [] := by
  by_cases hn : n = 0
  · subst hn; decide
  · rw [natCharsNN, if_neg hn, natChars]
    have : natDigits n ≠ [] := by
      rw [natDigits_eq]
      exact Nat.digits_ne_nil_iff_ne_zero.mpr hn
    simpa using this

theorem isDigit_mem_natCharsNN (n : Nat) (c : Char) (h : c ∈ natCharsNN n) :
    c.isDigit = true := by
  by_cases hn : n = 0
  · subst hn
    have h0 : natCharsNN 0 = ['0'] := rfl
    rw [h0] at h
    rcases List.mem_singleton.mp h with rfl
    decide
  · rw [natCharsNN, if_neg hn, natChars] at h
    rcases List.mem_map.mp h with ⟨d, hd, rfl⟩
    exact isDigit_digitToChar d (mem_natDigits_lt n d (List.mem_reverse.mp hd))

theorem isDigit_mem_natPaddedChars (k n : Nat) (c : Char) (h : c ∈ natPaddedChars k n) :
    c.isDigit = true := by
  rw [natPaddedChars] at h
  rcases List.mem_append.mp h with h | h
  · rcases List.eq_of_mem_replicate h with rfl
    decide
  · rw [natChars] at h
    rcases List.mem_map.mp h with ⟨d, hd, rfl⟩
    exact isDigit_digitToChar d (mem_natDigits_lt n d (List.mem_reverse.mp hd))

theorem natDigits_len_le (k n : Nat) (h : n < 10 ^ k) : (natDigits n).length ≤ k := by
  rw [natDigits_eq]
  by_cases hn : n = 0
  · simp [hn]
  · rw [Nat.digits_len 10 n (by norm_num) hn]
    have := (Nat.lt_pow_iff_log_lt (by norm_num : 1 < 10) hn).mp h
    omega

theorem length_natPaddedChars (k n : Nat) (h : n < 10 ^ k) :
    (natPaddedChars k n).length = k := by
  rw [natPaddedChars, List.length_append, List.length_replicate, natChars,
    List.length_map, List.length_reverse]
  have := natDigits_len_le k n h
  omega

theorem parseDigits_natPaddedChars (k n : Nat) (hk : 0 < k) (h : n < 10 ^ k) :
    parseDigits (natPaddedChars k n) = some n := by
  rw [natPaddedChars]
  apply parseDigits_padded
  have := natDigits_len_le k n h
  omega

theorem splitAtDot_append (I F : List Char) (h : '.' ∉ I) :
    splitAtDot (I ++ '.' :: F) = (I, some F) := by
  induction I with
  | nil => simp [splitAtDot]
  | cons c tl ih =>
    have hc : ¬ c = '.' := fun he => h (he ▸ List.mem_cons_self c tl)
    have htl : '.' ∉ tl := fun hm => h (List.mem_cons_of_mem c hm)
    simp only [List.cons_append, splitAtDot, if_neg hc, List.append_eq, ih htl]

end DigitLemmas

section RoundTripLemmas

theorem parsePyInt_natToString (n : Nat) : parsePyInt (natToString n) = some (n : Int) := by
  obtain ⟨c, rest, hcr⟩ : ∃ c rest, natCharsNN n = c :: rest := by
    rcases hne : natCharsNN n with _ | ⟨c, rest⟩
    · exact absurd hne (natCharsNN_ne_nil n)
    · exact ⟨c, rest, rfl⟩
  have hdig : c.isDigit = true :=
    isDigit_mem_natCharsNN n c (by rw [hcr]; exact List.mem_cons_self _ _)
  obtain ⟨hm, hp, _⟩ := isDigit_not_special c hdig
  have hdata : (natToString n).data = c :: rest := hcr
  rw [parsePyInt, hdata]
  simp only [if_neg hm, if_neg hp]
  rw [← hcr, parseDigits_natCharsNN]
  rfl

theorem parsePyInt_intToString (n : Int) (h : 0 ≤ n) :
    parsePyInt (intToString n) = some n := by
  rw [intToString, if_neg (by omega : ¬ n < 0), parsePyInt_natToString]
  congr 1
  omega

theorem natToString_ne_empty (n : Nat) : natToString n ≠ "" := by
  intro he
  have : (natToString n).data = [] := by rw [he]
  exact natCharsNN_ne_nil n this

theorem intToString_ne_empty (n : Int) : intToString n ≠ "" := by
  rw [intToString]
  split_ifs
  · intro he
    have : (String.mk ('-' :: natCharsNN n.natAbs)).data = [] := by rw [he]
    simp at this
  · exact natToString_ne_empty n.toNat

theorem ratToString_ne_empty (q : Rat) : ratToString q ≠ "" := by
  intro he
  have : (ratToString q).data = [] := by rw [he]
  rw [ratToString] at this
  rcases hne : natCharsNN (q.num.toNat * (10 ^ q.den / q.den) / 10 ^ q.den) with _ | ⟨c, rest⟩
  · exact natCharsNN_ne_nil _ hne
  · rw [show (String.mk (natCharsNN (q.num.toNat * (10 ^ q.den / q.den) / 10 ^ q.den) ++
      '.' :: natPaddedChars q.den (q.num.toNat * (10 ^ q.den / q.den) % 10 ^ q.den))).data =
      natCharsNN (q.num.toNat * (10 ^ q.den / q.den) / 10 ^ q.den) ++
      '.' :: natPaddedChars q.den (q.num.toNat * (10 ^ q.den / q.den) % 10 ^ q.den) from rfl,
      hne] at this
    simp at this

theorem mkRat_scaled (q : Rat) (h0 : 0 ≤ q) (c : Nat) (hc : 10 ^ q.den = q.den * c) :
    mkRat ((q.num.toNat * c : Nat) : Int) (10 ^ q.den) = q := by
  have hc0 : c ≠ 0 := by
    intro h
    have : (10 : Nat) ^ q.den ≠ 0 := by positivity
    rw [hc, h, Nat.mul_zero] at this
    exact this rfl
  have harg : ((q.num.toNat * c : Nat) : Int) = q.num * (c : Int) := by
    push_cast [Int.toNat_of_nonneg (Rat.num_nonneg.mpr h0)]
    ring
  rw [harg, Rat.mkRat_eq_div]
  push_cast
  have hcast : ((10 : ℚ)) ^ q.den = (q.den : ℚ) * (c : ℚ) := by
    have := congrArg (fun m : Nat => (m : ℚ)) hc
    push_cast at this
    exact this
  rw [hcast, mul_div_mul_right _ _ (by exact_mod_cast hc0), Rat.num_div_den]

theorem parsePyFloat_ratToString (q : Rat) (h0 : 0 ≤ q) (hd : DecimalRat q) :
    parsePyFloat (ratToString q) = some q := by
  obtain ⟨c, hc⟩ : ∃ c, 10 ^ q.den = q.den * c := hd
  have hcdiv : 10 ^ q.den / q.den = c := by
    rw [hc, Nat.mul_div_cancel_left c q.den_pos]
  have hepos : 0 < 10 ^ q.den := by positivity
  set scaled := q.num.toNat * c with hscaled
  set a := scaled / 10 ^ q.den with ha
  set b := scaled % 10 ^ q.den with hb
  have hblt : b < 10 ^ q.den := Nat.mod_lt _ hepos
  have hdata : (ratToString q).data = natCharsNN a ++ '.' :: natPaddedChars q.den b := by
    rw [ratToString, hcdiv]
  obtain ⟨c0, rest, hcr⟩ : ∃ c0 rest, natCharsNN a = c0 :: rest := by
    rcases hne : natCharsNN a with _ | ⟨c0, rest⟩
    · exact absurd hne (natCharsNN_ne_nil a)
    · exact ⟨c0, rest, rfl⟩
  have hdig : c0.isDigit = true :=
    isDigit_mem_natCharsNN a c0 (by rw [hcr]; exact List.mem_cons_self _ _)
  obtain ⟨hm, hp, _⟩ := isDigit_not_special c0 hdig
  rw [parsePyFloat, hdata, hcr, List.cons_append]
  simp only [if_neg hm, if_neg hp]
  rw [← List.cons_append, ← hcr]
  have hnodot : '.' ∉ natCharsNN a := by
    intro hmem
    have := isDigit_mem_natCharsNN a '.' hmem
    exact absurd this (by decide)
  rw [parseUnsignedFloat, splitAtDot_append _ _ hnodot]
  have hplen : (natPaddedChars q.den b).length = q.den := length_natPaddedChars _ _ hblt
  have hfne : natPaddedChars q.den b ≠ [] := by
    intro he
    rw [he] at hplen
    exact absurd hplen.symm q.den_nz
  simp only [if_neg (natCharsNN_ne_nil a), if_neg hfne]
  rw [parseDigits_natCharsNN, parseDigits_natPaddedChars _ _ q.den_pos hblt]
  rw [hplen]
  show some (mkRat ((a : Int) * 10 ^ q.den + (b : Int)) (10 ^ q.den)) = some q
  have hab : a * 10 ^ q.den + b = scaled := by
    rw [ha, hb, Nat.mul_comm]
    exact Nat.div_add_mod scaled (10 ^ q.den)
  have habz : (a : Int) * 10 ^ q.den + (b : Int) = ((scaled : Nat) : Int) := by
    exact_mod_cast hab
  rw [habz, hscaled, mkRat_scaled q h0 c hc]

theorem parse_row_student_to_row (s : Student) (hage : 0 ≤ s.age) (hsem : 0 ≤ s.semester)
    (hm0 : 0 ≤ s.marks) (hmd : DecimalRat s.marks) (hg0 : 0 ≤ s.gpa) (hgd : DecimalRat s.gpa) :
    parse_row (student_to_row s) = some s := by
  simp only [student_to_row, parse_row, if_neg (intToString_ne_empty s.age),
    if_neg (intToString_ne_empty s.semester), if_neg (ratToString_ne_empty s.marks),
    if_neg (ratToString_ne_empty s.gpa), parsePyInt_intToString s.age hage,
    parsePyInt_intToString s.semester hsem, parsePyFloat_ratToString s.marks hm0 hmd,
    parsePyFloat_ratToString s.gpa hg0 hgd, Option.some_bind, Option.pure_def]
  rfl

theorem load_rows_map_append (l acc : List Student)
    (h : ∀ s ∈ l, parse_row (student_to_row s) = some s) :
    load_rows (l.map student_to_row) acc = acc ++ l := by
  induction l generalizing acc with
  | nil => simp [load_rows]
  | cons s tl ih =>
    rw [List.map_cons]
    simp only [load_rows]
    rw [h s (List.mem_cons_self s tl)]
    show load_rows (tl.map student_to_row) (acc ++ [s]) = acc ++ s :: tl
    rw [ih (acc ++ [s]) (fun x hx => h x (List.mem_cons_of_mem s hx))]
    simp

end RoundTripLemmas

section StoreLemmas

theorem applyChoice_roll_no (c : UpdateChoice) (s : Student) :
    (applyChoice c s).roll_no = s.roll_no := by
  cases c <;> simp only [applyChoice] <;> split_ifs <;> rfl

theorem update_student_ok_elim (roll : String) (c : UpdateChoice)
    (l l' : List Student) (h : update_student roll c l = .ok l') :
    ∃ i r, l.get? i = some r ∧ l' = l.set i (applyChoice c r) := by
  induction l generalizing l' with
  | nil => exact absurd h (by simp [update_student])
  | cons s tl ih =>
    rw [update_student] at h
    by_cases hm : (pyLower s.roll_no == pyLower roll) = true
    · rw [if_pos hm] at h
      refine ⟨0, s, rfl, ?_⟩
      cases h
      rfl
    · rw [if_neg hm] at h
      rcases hu : update_student roll c tl with e | tl'
      · rw [hu] at h
        exact absurd h (by simp [Except.map])
      · rw [hu] at h
        have : l' = s :: tl' := by
          cases h
          rfl
        obtain ⟨i, r, hget, hset⟩ := ih tl' hu
        exact ⟨i + 1, r, hget, by rw [this, hset]; rfl⟩

theorem list_set_of_get? {α : Type} (l : List α) (i : Nat) (a : α)
    (h : l.get? i = some a) : l.set i a = l := by
  apply List.ext_getElem?
  intro n
  rw [List.getElem?_set]
  by_cases hn : i = n
  · subst hn
    rw [← List.get?_eq_getElem?, h, if_pos rfl, if_pos]
    obtain ⟨hlt, _⟩ := List.get?_eq_some.mp h
    exact hlt
  · rw [if_neg hn]

theorem update_student_map_roll (roll : String) (c : UpdateChoice)
    (l l' : List Student) (h : update_student roll c l = .ok l') :
    l'.map Student.roll_no = l.map Student.roll_no := by
  obtain ⟨i, r, hget, hset⟩ := update_student_ok_elim roll c l l' h
  rw [hset, List.map_set, applyChoice_roll_no]
  apply list_set_of_get?
  rw [List.get?_eq_getElem?, List.getElem?_map, ← List.get?_eq_getElem?, hget]
  rfl

theorem update_student_not_found (roll : String) (c : UpdateChoice)
    (l : List Student) (h : ∀ s ∈ l, pyLower s.roll_no ≠ pyLower roll) :
    update_student roll c l = .error .notFound := by
  induction l with
  | nil => rfl
  | cons s tl ih =>
    rw [update_student]
    have hne : ¬ (pyLower s.roll_no == pyLower roll) = true := by
      simp only [beq_iff_eq]
      exact h s (List.mem_cons_self s tl)
    rw [if_neg hne, ih (fun x hx => h x (List.mem_cons_of_mem s hx))]
    rfl

theorem update_student_noop (roll : String) (c : UpdateChoice) (l : List Student)
    (hid : ∀ s, applyChoice c s = s)
    (h : ∃ s ∈ l, pyLower s.roll_no = pyLower roll) :
    update_student roll c l = .ok l := by
  induction l with
  | nil => simp at h
  | cons s tl ih =>
    rw [update_student]
    by_cases hm : (pyLower s.roll_no == pyLower roll) = true
    · rw [if_pos hm, hid s]
    · rw [if_neg hm]
      have : ∃ x ∈ tl, pyLower x.roll_no = pyLower roll := by
        obtain ⟨x, hx, hxr⟩ := h
        rcases List.mem_cons.mp hx with rfl | hx
        · exact absurd (beq_iff_eq.mpr hxr) hm
        · exact ⟨x, hx, hxr⟩
      rw [ih this]
      rfl

theorem delete_student_sublist (roll : String) (l l' : List Student) (d : Student)
    (h : delete_student roll l = .ok (d, l')) : l'.Sublist l := by
  induction l generalizing l' d with
  | nil => exact absurd h (by simp [delete_student])
  | cons s tl ih =>
    rw [delete_student] at h
    by_cases hm : (pyLower s.roll_no == pyLower roll) = true
    · rw [if_pos hm] at h
      cases h
      exact List.sublist_cons_self s tl
    · rw [if_neg hm] at h
      rcases hd : delete_student roll tl with e | p
      · rw [hd] at h
        exact absurd h (by simp [Except.map])
      · rw [hd] at h
        have : d = p.1 ∧ l' = s :: p.2 := by
          cases h
          exact ⟨rfl, rfl⟩
        rw [this.2]
        exact List.Sublist.cons₂ s (ih p.2 p.1 (by rw [hd]))

theorem is_roll_no_unique_from_spec (roll : String) (l : List Student) (i : Int)
    (hi : 0 ≤ i) :
    is_roll_no_unique_from roll (-1) i l = true ↔
      ∀ s ∈ l, pyLower s.roll_no ≠ pyLower roll := by
  induction l generalizing i with
  | nil => simp [is_roll_no_unique_from]
  | cons s tl ih =>
    rw [is_roll_no_unique_from]
    have hne : (i == (-1 : Int)) = false := by
      simp only [beq_eq_false_iff_ne, ne_eq]
      omega
    rw [hne, Bool.false_or, Bool.and_eq_true, ih (i + 1) (by omega)]
    simp only [bne_iff_ne, ne_eq, List.mem_cons]
    constructor
    · rintro ⟨h1, h2⟩ x (rfl | hx)
      · exact h1
      · exact h2 x hx
    · intro hx
      exact ⟨hx s (Or.inl rfl), fun x h => hx x (Or.inr h)⟩

theorem is_roll_no_unique_spec (roll : String) (l : List Student) :
    is_roll_no_unique roll l (-1) = true ↔
      ∀ s ∈ l, pyLower s.roll_no ≠ pyLower roll :=
  is_roll_no_unique_from_spec roll l 0 le_rfl

theorem UniqueRolls_iff_map (l : List Student) :
    UniqueRolls l ↔ (l.map Student.roll_no).Pairwise (fun a b => pyLower a ≠ pyLower b) := by
  rw [UniqueRolls, List.pairwise_map]

theorem add_student_ok_elim (inp : StudentInput) (l l' : List Student)
    (h : add_student inp l = .ok l') :
    (∀ s ∈ l, pyLower s.roll_no ≠ pyLower inp.roll_no) ∧
      ∃ s, s.roll_no = inp.roll_no ∧ l' = l ++ [s] := by
  rw [add_student] at h
  split_ifs at h with h1 h2 h3 h4 h5 h6 h7 h8
  have hu : is_roll_no_unique inp.roll_no l (-1) = true := by
    revert h2
    cases is_roll_no_unique inp.roll_no l (-1) <;> simp
  refine ⟨(is_roll_no_unique_spec inp.roll_no l).mp hu, ?_⟩
  cases h
  exact ⟨_, rfl, rfl⟩

theorem unique_preserved_add (inp : StudentInput) (l l' : List Student)
    (h : add_student inp l = .ok l') (hu : UniqueRolls l) : UniqueRolls l' := by
  obtain ⟨hall, s, hroll, rfl⟩ := add_student_ok_elim inp l l' h
  rw [UniqueRolls, List.pairwise_append]
  refine ⟨hu, List.pairwise_singleton _ _, ?_⟩
  intro a ha b hb
  rcases List.mem_singleton.mp hb with rfl
  rw [hroll]
  exact hall a ha

theorem unique_preserved_update (roll : String) (c : UpdateChoice)
    (l l' : List Student) (h : update_student roll c l = .ok l')
    (hu : UniqueRolls l) : UniqueRolls l' := by
  rw [UniqueRolls_iff_map] at hu ⊢
  rw [update_student_map_roll roll c l l' h]
  exact hu

theorem unique_preserved_delete (roll : String) (l l' : List Student) (d : Student)
    (h : delete_student roll l = .ok (d, l')) (hu : UniqueRolls l) : UniqueRolls l' :=
  List.Pairwise.sublist (delete_student_sublist roll l l' d h) hu

theorem unique_preserved_op (op : Op) (l : List Student) (hu : UniqueRolls l) :
    UniqueRolls (apply_op op l) := by
  rcases op with inp | ⟨roll, c⟩ | roll
  · rw [apply_op]
    rcases ha : add_student inp l with e | l'
    · exact hu
    · exact unique_preserved_add inp l l' ha hu
  · rw [apply_op]
    rcases ha : update_student roll c l with e | l'
    · exact hu
    · exact unique_preserved_update roll c l l' ha hu
  · rw [apply_op]
    rcases ha : delete_student roll l with e | p
    · exact hu
    · exact unique_preserved_delete roll l p.2 p.1 (by rw [ha]) hu

end StoreLemmas

section GradeLemmas

theorem mkRat_37_10 : mkRat 37 10 = (3.7 : ℚ) := by
  rw [show (3.7 : ℚ) = Rat.ofScientific 37 true 1 from rfl, Rat.ofScientific_true_def]
  norm_num

theorem mkRat_33_10 : mkRat 33 10 = (3.3 : ℚ) := by
  rw [show (3.3 : ℚ) = Rat.ofScientific 33 true 1 from rfl, Rat.ofScientific_true_def]
  norm_num

theorem mkRat_27_10 : mkRat 27 10 = (2.7 : ℚ) := by
  rw [show (2.7 : ℚ) = Rat.ofScientific 27 true 1 from rfl, Rat.ofScientific_true_def]
  norm_num

end GradeLemmas

section SampleData

/-- A concrete record used to instantiate the theorems below. -/
def sampleStudent : Student :=
  { roll_no := "A101", name := "Asha", age := 20, gender := "F",
    department := "CS", semester := 3, marks := 85, gpa := mkRat 37 10, grade := "A" }

/-- `sampleStudent` after an update of marks to 35. -/
def sampleStudentF : Student :=
  { sampleStudent with marks := 35, gpa := 0, grade := "F" }

/-- A concrete full state used to instantiate the theorems below. -/
def sampleState : SysState := ⟨[sampleStudent], save_students [sampleStudent]⟩

/-- The update choices that write the `Marks` field (and with it the
derived `GPA`/`Grade`): menu choices 6 and 7. -/
def touches_marks : UpdateChoice → Bool
  | .set_marks _ => true
  | .update_all _ _ _ _ _ _ => true
  | _ => false

end SampleData

section Claims

/-- C1: for every marks value in [0,100], `calculate_gpa_and_grade` returns exactly
the tabulated (gpa, grade) pair of the band containing the marks — marks ≥ 90 gives
(4.0, "A+"), 80 ≤ marks < 90 gives (3.7, "A"), 70 ≤ marks < 80 gives (3.3, "B+"),
60 ≤ marks < 70 gives (3.0, "B"), 50 ≤ marks < 60 gives (2.7, "C+"), 40 ≤ marks < 50
gives (2.0, "C"), and marks < 40 gives (0.0, "F") — with each boundary value in the
higher band and no rounding of marks before comparison. -/
theorem C1_calculate_gpa_and_grade_bands (m : Rat) (hlo : 0 ≤ m) (hhi : m ≤ 100) :
    (90 ≤ m → calculate_gpa_and_grade m = (4.0, "A+")) ∧
    (80 ≤ m ∧ m < 90 → calculate_gpa_and_grade m = (3.7, "A")) ∧
    (70 ≤ m ∧ m < 80 → calculate_gpa_and_grade m = (3.3, "B+")) ∧
    (60 ≤ m ∧ m < 70 → calculate_gpa_and_grade m = (3.0, "B")) ∧
    (50 ≤ m ∧ m < 60 → calculate_gpa_and_grade m = (2.7, "C+")) ∧
    (40 ≤ m ∧ m < 50 → calculate_gpa_and_grade m = (2.0, "C")) ∧
    (m < 40 → calculate_gpa_and_grade m = (0.0, "F")) := by
  refine ⟨?_, ?_, ?_, ?_, ?_, ?_, ?_⟩
  · intro h
    rw [calculate_gpa_and_grade, if_pos (by exact h : m ≥ 90)]
    norm_num
  · rintro ⟨ha, hb⟩
    rw [calculate_gpa_and_grade, if_neg (by push_neg; linarith : ¬ m ≥ 90),
      if_pos (by exact ha : m ≥ 80), mkRat_37_10]
  · rintro ⟨ha, hb⟩
    rw [calculate_gpa_and_grade, if_neg (by push_neg; linarith : ¬ m ≥ 90),
      if_neg (by push_neg; linarith : ¬ m ≥ 80), if_pos (by exact ha : m ≥ 70), mkRat_33_10]
  · rintro ⟨ha, hb⟩
    rw [calculate_gpa_and_grade, if_neg (by push_neg; linarith : ¬ m ≥ 90),
      if_neg (by push_neg; linarith : ¬ m ≥ 80), if_neg (by push_neg; linarith : ¬ m ≥ 70),
      if_pos (by exact ha : m ≥ 60)]
    norm_num
  · rintro ⟨ha, hb⟩
    rw [calculate_gpa_and_grade, if_neg (by push_neg; linarith : ¬ m ≥ 90),
      if_neg (by push_neg; linarith : ¬ m ≥ 80), if_neg (by push_neg; linarith : ¬ m ≥ 70),
      if_neg (by push_neg; linarith : ¬ m ≥ 60), if_pos (by exact ha : m ≥ 50), mkRat_27_10]
  · rintro ⟨ha, hb⟩
    rw [calculate_gpa_and_grade, if_neg (by push_neg; linarith : ¬ m ≥ 90),
      if_neg (by push_neg; linarith : ¬ m ≥ 80), if_neg (by push_neg; linarith : ¬ m ≥ 70),
      if_neg (by push_neg; linarith : ¬ m ≥ 60), if_neg (by push_neg; linarith : ¬ m ≥ 50),
      if_pos (by exact ha : m ≥ 40)]
    norm_num
  · intro h
    rw [calculate_gpa_and_grade, if_neg (by push_neg; linarith : ¬ m ≥ 90),
      if_neg (by push_neg; linarith : ¬ m ≥ 80), if_neg (by push_neg; linarith : ¬ m ≥ 70),
      if_neg (by push_neg; linarith : ¬ m ≥ 60), if_neg (by push_neg; linarith : ¬ m ≥ 50),
      if_neg (by push_neg; linarith : ¬ m ≥ 40)]
    norm_num

/-- Witness for C1 at the boundary value 90 and at 85. -/
theorem C1_witness_bands :
    calculate_gpa_and_grade 90 = (4.0, "A+") ∧ calculate_gpa_and_grade 85 = (3.7, "A") :=
  ⟨(C1_calculate_gpa_and_grade_bands 90 (by norm_num) (by norm_num)).1 (by norm_num),
   (C1_calculate_gpa_and_grade_bands 85 (by norm_num) (by norm_num)).2.1
     ⟨by norm_num, by norm_num⟩⟩


/-- C2: any sequence of create/update/delete operations started from a store
satisfying the uniqueness invariant preserves it: no two records ever share a
case-insensitively equal roll number. -/
theorem C2_unique_rolls_invariant (ops : List Op) (l : List Student)
    (h : UniqueRolls l) : UniqueRolls (apply_ops ops l) := by
  induction ops generalizing l with
  | nil => exact h
  | cons op tl ih => exact ih _ (unique_preserved_op op l h)

/-- Witness for C2: a create/update/delete sequence run from the empty store. -/
theorem C2_witness_unique :
    UniqueRolls [] ∧
    UniqueRolls (apply_ops
      [Op.create ⟨"A101", "Asha", 20, "F", "CS", 3, 85⟩,
       Op.create ⟨"B202", "Bina", 21, "F", "EE", 4, 55⟩,
       Op.update "a101" (.set_marks 35),
       Op.delete "b202"] []) :=
  ⟨by decide, C2_unique_rolls_invariant _ [] (by decide)⟩

/-- C3: saving any sequence of records whose numeric fields are in their valid
ranges (and float-representable) and loading the result yields the same
sequence: same number of records, same order, equal fields. -/
theorem C3_save_load_round_trip (l : List Student) (h : ∀ s ∈ l, ValidStudent s) :
    load_students (save_students l) = l := by
  rcases l with _ | ⟨s, tl⟩
  · rfl
  · have hrows : ∀ x ∈ s :: tl, parse_row (student_to_row x) = some x := by
      intro x hx
      obtain ⟨h1, h2, h3, h4, h5, h6, h7, h8, h9, h10⟩ := h x hx
      exact parse_row_student_to_row x (by omega) (by omega) h5 h9 h7 h10
    rw [save_students, if_neg (by simp)]
    simp only [load_students, if_pos rfl]
    rw [List.map_cons]
    simp only [load_rows, hrows s (List.mem_cons_self s tl)]
    show load_rows (tl.map student_to_row) ([] ++ [s]) = s :: tl
    rw [load_rows_map_append tl ([] ++ [s])
      (fun x hx => hrows x (List.mem_cons_of_mem s hx))]
    simp

/-- Witness for C3 on a one-record store. -/
theorem C3_witness_round_trip :
    (∀ s ∈ [sampleStudent], ValidStudent s) ∧
    load_students (save_students [sampleStudent]) = [sampleStudent] :=
  ⟨by decide, C3_save_load_round_trip [sampleStudent] (by decide)⟩

/-- A well-formed data row (parses to `sampleStudent`). -/
def c4_good_row : List String :=
  ["A101", "Asha", "20", "F", "CS", "3", "85.0", "3.7", "A"]

/-- A data row whose `Age` field fails integer coercion. -/
def c4_bad_row : List String :=
  ["102", "Bob", "abc", "M", "EE", "2", "50.0", "2.7", "C+"]

/-- A file with one good data row followed by one failing data row. -/
def c4_file : List (List String) := [csv_header, c4_good_row, c4_bad_row]

/-- C4 counterexample: on a file whose second data row fails numeric coercion,
`load_students` returns the record parsed from the first row — the partial
results are returned to the caller, not discarded, and nothing distinguishes
this truncated result from a successful load. -/
theorem C4_counterexample_partial_results :
    parse_row c4_bad_row = none ∧
    load_students c4_file = [sampleStudent] ∧
    load_students c4_file ≠ [] := by
  refine ⟨by decide, by decide, by decide⟩

theorem load_rows_stops (bad : List String) (rest : List (List String))
    (hbad : parse_row bad = none) :
    ∀ (good : List (List String)) (acc : List Student),
      (∀ r ∈ good, (parse_row r).isSome) →
      load_rows (good ++ bad :: rest) acc = acc ++ good.filterMap parse_row := by
  intro good
  induction good with
  | nil =>
    intro acc _
    simp only [List.nil_append, load_rows, hbad, List.filterMap_nil, List.append_nil]
  | cons g gs ih =>
    intro acc h
    obtain ⟨s, hs⟩ := Option.isSome_iff_exists.mp (h g (List.mem_cons_self g gs))
    simp only [List.cons_append, load_rows, hs, List.append_eq]
    rw [ih (acc ++ [s]) (fun r hr => h r (List.mem_cons_of_mem g hr))]
    simp [List.filterMap_cons, hs]

/-- C4 amended: for every file (with the canonical header) whose data rows
contain a failing row, `load_students` stops at the first row that fails
numeric coercion and returns the records parsed from the rows before it:
partial results are returned, not discarded, and the failure is not reported
to the caller (it is only printed). -/
theorem C4_amended_partial_load (good : List (List String)) (bad : List String)
    (rest : List (List String)) (hbad : parse_row bad = none)
    (hgood : ∀ r ∈ good, (parse_row r).isSome) :
    load_students (csv_header :: (good ++ bad :: rest)) = good.filterMap parse_row := by
  simp only [load_students, if_pos rfl]
  rw [load_rows_stops bad rest hbad good [] hgood]
  rfl

/-- Witness for the amended C4 on the concrete file `c4_file`. -/
theorem C4_witness_partial_load :
    (parse_row c4_bad_row = none ∧ ∀ r ∈ [c4_good_row], (parse_row r).isSome) ∧
    load_students (csv_header :: ([c4_good_row] ++ c4_bad_row :: [])) =
      [c4_good_row].filterMap parse_row :=
  ⟨⟨by decide, by decide⟩,
   C4_amended_partial_load [c4_good_row] c4_bad_row [] (by decide) (by decide)⟩

/-- C5: the claim says `save_students` on an empty sequence writes exactly the
canonical header row; the code instead guards the whole write with
`if students:` and writes nothing at all — the file is left empty (the latent
bug the design notes flag).  This theorem evaluates the code at the failing
input. -/
theorem C5_save_empty_writes_nothing :
    save_students [] = [] ∧ save_students [] ≠ [csv_header] := by
  refine ⟨by decide, by decide⟩

/-- C6: creating a record whose roll number is case-insensitively equal to an
existing one fails with a validation error and leaves the full state (store
and file) unchanged: no record appended, nothing modified, nothing saved. -/
theorem C6_duplicate_create_fails (inp : StudentInput) (st : SysState)
    (h : ∃ s ∈ st.students, pyLower s.roll_no = pyLower inp.roll_no) :
    (∃ e, add_student inp st.students = .error e) ∧ run_op (.create inp) st = st := by
  have herr : ∃ e, add_student inp st.students = .error e := by
    rw [add_student]
    by_cases h1 : inp.roll_no = ""
    · rw [if_pos h1]
      exact ⟨_, rfl⟩
    · rw [if_neg h1]
      have hb : is_roll_no_unique inp.roll_no st.students (-1) = false := by
        apply Bool.eq_false_iff.mpr
        intro htrue
        obtain ⟨s, hs, heq⟩ := h
        exact (is_roll_no_unique_spec _ _).mp htrue s hs heq
      rw [if_pos (by rw [hb]; simp)]
      exact ⟨_, rfl⟩
  refine ⟨herr, ?_⟩
  obtain ⟨e, he⟩ := herr
  simp only [run_op, he]

/-- Witness for C6: creating roll number "a101" over the store holding "A101". -/
theorem C6_witness_duplicate_create :
    (∃ s ∈ sampleState.students, pyLower s.roll_no = pyLower "a101") ∧
    (∃ e, add_student ⟨"a101", "Dup", 20, "F", "CS", 3, 85⟩ sampleState.students = .error e) ∧
    run_op (.create ⟨"a101", "Dup", 20, "F", "CS", 3, 85⟩) sampleState = sampleState :=
  ⟨by decide,
   C6_duplicate_create_fails ⟨"a101", "Dup", 20, "F", "CS", 3, 85⟩ sampleState (by decide)⟩

/-- C7: updating a roll number that matches no record case-insensitively fails
with "not found" and leaves the full state (store and file) unchanged: no
record added, removed, or modified, and nothing saved. -/
theorem C7_update_missing_not_found (roll : String) (c : UpdateChoice) (st : SysState)
    (h : ∀ s ∈ st.students, pyLower s.roll_no ≠ pyLower roll) :
    update_student roll c st.students = .error .notFound ∧
    run_op (.update roll c) st = st := by
  have herr := update_student_not_found roll c st.students h
  exact ⟨herr, by simp only [run_op, herr]⟩

/-- Witness for C7: updating the absent roll number "999". -/
theorem C7_witness_update_missing :
    (∀ s ∈ sampleState.students, pyLower s.roll_no ≠ pyLower "999") ∧
    update_student "999" (.set_name "Zed") sampleState.students = .error .notFound ∧
    run_op (.update "999" (.set_name "Zed")) sampleState = sampleState :=
  ⟨by decide, C7_update_missing_not_found "999" (.set_name "Zed") sampleState (by decide)⟩

theorem add_student_ok_nonempty (inp : StudentInput) (l l' : List Student)
    (h : add_student inp l = .ok l') : inp.name ≠ "" ∧ inp.department ≠ "" := by
  rw [add_student] at h
  split_ifs at h with h1 h2 h3 h4 h5 h6 h7 h8
  exact ⟨h3, h6⟩

/-- C8: an update that supplies an empty string for the name or the department
leaves the record (and the store) exactly as it was — the old value is
retained, not overwritten and not rejected — whereas create rejects an empty
name or department outright. -/
theorem C8_empty_update_retains_vs_create :
    (∀ r : Student, applyChoice (.set_name "") r = r ∧
      applyChoice (.set_department "") r = r) ∧
    (∀ (roll : String) (l : List Student),
      (∃ s ∈ l, pyLower s.roll_no = pyLower roll) →
      update_student roll (.set_name "") l = .ok l ∧
      update_student roll (.set_department "") l = .ok l) ∧
    (∀ (inp : StudentInput) (l : List Student), inp.name = "" ∨ inp.department = "" →
      ∃ e, add_student inp l = .error e) := by
  have hname : ∀ r : Student, applyChoice (.set_name "") r = r := fun r => by
    simp [applyChoice]
  have hdept : ∀ r : Student, applyChoice (.set_department "") r = r := fun r => by
    simp [applyChoice]
  refine ⟨fun r => ⟨hname r, hdept r⟩,
    fun roll l h => ⟨update_student_noop roll _ l hname h,
      update_student_noop roll _ l hdept h⟩, ?_⟩
  intro inp l h
  rcases hres : add_student inp l with e | l'
  · exact ⟨e, rfl⟩
  · obtain ⟨hn, hd⟩ := add_student_ok_nonempty inp l l' hres
    rcases h with h | h
    · exact absurd h hn
    · exact absurd h hd

/-- Witness for C8: an empty-name update on the sample store succeeds and
changes nothing; a create with an empty name fails. -/
theorem C8_witness_empty_update :
    (∃ s ∈ [sampleStudent], pyLower s.roll_no = pyLower "a101") ∧
    update_student "a101" (.set_name "") [sampleStudent] = .ok [sampleStudent] ∧
    (∃ e, add_student ⟨"C303", "", 20, "F", "CS", 3, 85⟩ [] = .error e) :=
  ⟨by decide,
   ((C8_empty_update_retains_vs_create).2.1 "a101" [sampleStudent] (by decide)).1,
   (C8_empty_update_retains_vs_create).2.2 ⟨"C303", "", 20, "F", "CS", 3, 85⟩ [] (Or.inl rfl)⟩

/-- C9: a successful update mutates exactly the located record via its menu
choice: setting marks (in range) stores the new marks and recomputes
gpa/grade from them by the derivation rule, every other single-field choice
leaves marks, gpa and grade exactly as they were, and in each case every
field the choice does not supply retains its prior value (the record-update
equations below change only the supplied field). -/
theorem C9_update_marks_recompute (roll : String) (c : UpdateChoice)
    (l l' : List Student) (h : update_student roll c l = .ok l') :
    ∃ i r, l.get? i = some r ∧ l' = l.set i (applyChoice c r) ∧
      (∀ n, c = .set_name n → n ≠ "" → applyChoice c r = { r with name := n }) ∧
      (∀ a, c = .set_age a → 15 ≤ a → a ≤ 100 → applyChoice c r = { r with age := a }) ∧
      (∀ g, c = .set_gender g → pyUpper g ∈ gender_options →
        applyChoice c r = { r with gender := pyUpper g }) ∧
      (∀ d, c = .set_department d → d ≠ "" →
        applyChoice c r = { r with department := d }) ∧
      (∀ k, c = .set_semester k → 1 ≤ k → k ≤ 8 →
        applyChoice c r = { r with semester := k }) ∧
      (∀ m, c = .set_marks m → 0 ≤ m → m ≤ 100 →
        applyChoice c r = { r with marks := m, gpa := (calculate_gpa_and_grade m).1, grade := (calculate_gpa_and_grade m).2 }) ∧
      (touches_marks c = false → (applyChoice c r).marks = r.marks ∧
        (applyChoice c r).gpa = r.gpa ∧ (applyChoice c r).grade = r.grade) := by
  obtain ⟨i, r, hget, hset⟩ := update_student_ok_elim roll c l l' h
  refine ⟨i, r, hget, hset, ?_, ?_, ?_, ?_, ?_, ?_, ?_⟩
  · rintro n rfl hne
    simp [applyChoice, hne]
  · rintro a rfl h15 h100
    simp [applyChoice, h15, h100]
  · rintro g rfl hg
    simp [applyChoice, hg]
  · rintro d rfl hne
    simp [applyChoice, hne]
  · rintro k rfl h1 h8
    simp [applyChoice, h1, h8]
  · rintro m rfl h0 h100
    rcases hcalc : calculate_gpa_and_grade m with ⟨gp, gr⟩
    simp [applyChoice, h0, h100, hcalc]
  · intro ht
    cases c with
    | set_name n => simp only [applyChoice]; split_ifs <;> exact ⟨rfl, rfl, rfl⟩
    | set_age a => simp only [applyChoice]; split_ifs <;> exact ⟨rfl, rfl, rfl⟩
    | set_gender g => simp only [applyChoice]; split_ifs <;> exact ⟨rfl, rfl, rfl⟩
    | set_department d => simp only [applyChoice]; split_ifs <;> exact ⟨rfl, rfl, rfl⟩
    | set_semester k => simp only [applyChoice]; split_ifs <;> exact ⟨rfl, rfl, rfl⟩
    | set_marks m => simp [touches_marks] at ht
    | update_all n a g d k m => simp [touches_marks] at ht

/-- Witness for C9: updating marks of the sample record to 35 yields gpa 0 and
grade "F" with all other fields unchanged. -/
theorem C9_witness_update_marks :
    ∃ i r, [sampleStudent].get? i = some r ∧
      [sampleStudentF] = [sampleStudent].set i
        (applyChoice (.set_marks 35) r) ∧
      (∀ n, UpdateChoice.set_marks 35 = .set_name n → n ≠ "" →
        applyChoice (.set_marks 35) r = { r with name := n }) ∧
      (∀ a, UpdateChoice.set_marks 35 = .set_age a → 15 ≤ a → a ≤ 100 →
        applyChoice (.set_marks 35) r = { r with age := a }) ∧
      (∀ g, UpdateChoice.set_marks 35 = .set_gender g → pyUpper g ∈ gender_options →
        applyChoice (.set_marks 35) r = { r with gender := pyUpper g }) ∧
      (∀ d, UpdateChoice.set_marks 35 = .set_department d → d ≠ "" →
        applyChoice (.set_marks 35) r = { r with department := d }) ∧
      (∀ k, UpdateChoice.set_marks 35 = .set_semester k → 1 ≤ k → k ≤ 8 →
        applyChoice (.set_marks 35) r = { r with semester := k }) ∧
      (∀ m, UpdateChoice.set_marks 35 = .set_marks m → 0 ≤ m → m ≤ 100 →
        applyChoice (.set_marks 35) r = { r with marks := m, gpa := (calculate_gpa_and_grade m).1, grade := (calculate_gpa_and_grade m).2 }) ∧
      (touches_marks (.set_marks 35) = false →
        (applyChoice (.set_marks 35) r).marks = r.marks ∧
        (applyChoice (.set_marks 35) r).gpa = r.gpa ∧
        (applyChoice (.set_marks 35) r).grade = r.grade) :=
  C9_update_marks_recompute "a101" (.set_marks 35) [sampleStudent] [sampleStudentF]
    (by decide)

/-- C10: no update operation — successful or not — can change any record's
roll number: the stored roll numbers are identical, in order, before and
after every update. -/
theorem C10_update_preserves_roll_nos (roll : String) (c : UpdateChoice)
    (l : List Student) :
    (apply_op (.update roll c) l).map Student.roll_no = l.map Student.roll_no := by
  rw [apply_op]
  rcases hu : update_student roll c l with e | l'
  · rfl
  · exact update_student_map_roll roll c l l' hu

end Claims
